import Mathlib

/-
Verification of the EightByEight DMA matrix driver (src/firmware/matrix.h)
against its design specification.

The analysed source unit is the interface header of the driver: it fixes the
display geometry constants, the Pixel type, the field inventory of the Matrix
class (front/back DMA buffer pointers, pixel store, address and timer tables,
the pending-swap flag) and the signatures of every operation, but contains no
function bodies.  Wherever behaviour is needed that the header does not give,
the corresponding definition is modelled from the specification and says so in
its doc comment.
-/

namespace EightByEight

/-- Number of physical steps in the inner PWM cycle (`PWM_BITS`, matrix.h line 32). -/
def PWM_BITS : ℕ := 12

/-- Number of simulated (dithered) steps in the outer PWM cycle (`PAGED_BITS`,
matrix.h line 33). -/
def PAGED_BITS : ℕ := 2

/-- Number of pages that the paged bits are expanded into (`PAGES`, matrix.h line 35). -/
def PAGES : ℕ := 4

/-- Effective rendered colour resolution, `BIT_DEPTH = PWM_BITS + PAGED_BITS`
(matrix.h line 37). -/
def BIT_DEPTH : ℕ := PWM_BITS + PAGED_BITS

/-- Modelled from the spec: the geometry-provider constant `LED_ROWS`
(eightbyeight.h is not among the analysed sources); the EightByEight panel is an
8 x 8 matrix, and the spec treats the row count as a fixed build-time constant. -/
def LED_ROWS : ℕ := 8

/-- Modelled from the spec: the geometry-provider constant `LED_COLS`. -/
def LED_COLS : ℕ := 8

/-- RGB pixel type (matrix.h lines 40 to 57): an (R, G, B) triple of 8-bit channel
values, channels modelled over ℕ. -/
structure Pixel where
  R : ℕ
  G : ℕ
  B : ℕ
deriving DecidableEq

/-- The zero-argument `Pixel()` constructor (matrix.h lines 42 to 46): all three
channels zero. -/
def Pixel.init : Pixel := ⟨0, 0, 0⟩

/-- State of the `Matrix` driver (matrix.h lines 77 to 168), restricted to the fields
the claims are about.  The C++ object holds two raw pointers `frontBuffer` and
`backBuffer` into the two-element arena `dmaBuffer[2][PAGES*PANEL_DEPTH_SIZE]`
(lines 120, 121 and 132); here the two identities are indices into that arena, so
that the exchange of identities is visible without pointer aliasing.  The pixel
store `pixels` (line 125) is row-major pixel memory, modelled as an unbounded
store so that writes at out-of-range indices remain observable.  `swapBuffers`
(line 144) is the pending-update flag, `brightness` (line 117) the stored scale,
`currentPage` (line 145) the Sequencer page counter. -/
structure Matrix where
  brightness : ℚ
  frontBuffer : Fin 2
  backBuffer : Fin 2
  pixels : ℕ → Pixel
  dmaBuffer : Fin 2 → ℕ → ℤ
  swapBuffers : Bool
  currentPage : ℕ

/-- Modelled from the spec: the freshly constructed driver (the `Matrix()`
constructor body is not among the analysed sources).  Fresh grid of (0,0,0)
pixels (spec section 8, round trip), no pending update, buffer 0 front and
buffer 1 back, page 0, full brightness. -/
def matrixInit : Matrix :=
  { brightness := 1,
    frontBuffer := 0,
    backBuffer := 1,
    pixels := fun _ => Pixel.init,
    dmaBuffer := fun _ _ => 0,
    swapBuffers := false,
    currentPage := 0 }

/-- Clamping of a requested brightness to the unit interval. -/
def clampUnit (x : ℚ) : ℚ := max 0 (min 1 x)

/-- Modelled from the spec: `Matrix::setBrightness` (declared matrix.h line 86; body
not among the analysed sources).  Per section 4.3 it stores the argument clamped
to [0,1] and touches nothing else; the brightness is applied at encode time only. -/
def Matrix.setBrightness (m : Matrix) (x : ℚ) : Matrix :=
  { m with brightness := clampUnit x }

/-- `Matrix::getBrightness` (declared matrix.h line 89): returns the stored
brightness scale. -/
def Matrix.getBrightness (m : Matrix) : ℚ := m.brightness

/-- Row-major linearisation of the pixel grid: `row * columns + column`
(spec section 3, data model of the pixel store, matrix.h line 125). -/
def linearIndex (column row : ℕ) : ℕ := row * LED_COLS + column

/-- Modelled from the spec: `Matrix::setPixelColor(column, row, r, g, b)` (declared
matrix.h line 97; body not among the analysed sources).  Per section 3 the grid
is linearised by `row * columns + column`; per section 9 the indexing is
bounds-unchecked ("Bounds-unchecked indexing on pixel writes"), so the store
happens at the computed linear index whatever the arguments; the function
returns nothing (`void` in the header), so no error is reported to the caller. -/
def Matrix.setPixelColor (m : Matrix) (column row rv gv bv : ℕ) : Matrix :=
  { m with pixels := Function.update m.pixels (linearIndex column row) ⟨rv, gv, bv⟩ }

/-- Modelled from the spec: the `Pixel` overload of `setPixelColor` (declared
matrix.h line 103), storing the given pixel value at the same unchecked linear
index.  (C++ overloads share one name; Lean needs a second one.) -/
def Matrix.setPixelColorPx (m : Matrix) (column row : ℕ) (p : Pixel) : Matrix :=
  { m with pixels := Function.update m.pixels (linearIndex column row) p }

/-- The read side of `Matrix::getPixels` (declared matrix.h line 108): the returned
pointer addresses the live pixel display buffer, so reading through it reads the
current store; the call transforms no state. -/
def Matrix.getPixels (m : Matrix) : ℕ → Pixel := m.pixels

/-- A store through the non-const `Pixel*` returned by `getPixels` (matrix.h
line 108): because that pointer aliases the internal `pixels` member (line 125),
writing element `i` through the returned view updates the live pixel store. -/
def Matrix.ptrWrite (m : Matrix) (i : ℕ) (p : Pixel) : Matrix :=
  { m with pixels := Function.update m.getPixels i p }

/-- Modelled from the spec: the requested `bitDepth`-bit intensity for channel
value `v` and brightness scale `s`, namely
`round((v * s / 255) * (2^bitDepth - 1))` (spec section 3, dither/page mapping). -/
def targetValue (v : ℕ) (s : ℚ) : ℤ := round ((v * s / 255) * (2 ^ BIT_DEPTH - 1))

/-- Modelled from the spec: the `pwmBits`-wide binary value emitted for page `p`:
the requested intensity divided by `2^pagedBits`, with the `p`-th phase of an
evenly spaced dither sequence as rounding bias (spec section 3 together with the
section 9 note fixing an evenly-phased ordered-dither scheme). -/
def pageValue (v : ℕ) (s : ℚ) (p : ℕ) : ℤ := (targetValue v s + (p : ℤ)) / (PAGES : ℤ)

/-- Channel selector of a pixel: channel 0 is R, channel 1 is G, channel 2 is B. -/
def channelValue (px : Pixel) (ch : ℕ) : ℕ :=
  if ch = 0 then px.R else if ch = 1 then px.G else px.B

/-- Modelled from the spec: `Matrix::pixelsToDmaBuffer` (declared matrix.h line 167;
body not among the analysed sources).  Per section 4.4 the encoder computes, for
each page, each row and each column, the dithered `pwmBits`-wide value of every
channel, in the order the Sequencer reads it; the SPI bit packing of those
values into `dmaBuffer_t` words is not specified by the spec, so the buffer is
modelled at per-channel granularity: index `i` holds the dithered value of
channel `i % 3` of grid cell `(i % (rows*cols*3)) / 3` for page
`i / (rows*cols*3)`.  The result is a total function of the pixel store and the
brightness alone, so each call fully overwrites the buffer it targets. -/
def pixelsToDmaBuffer (pix : ℕ → Pixel) (s : ℚ) : ℕ → ℤ := fun i =>
  pageValue (channelValue (pix ((i % (LED_ROWS * LED_COLS * 3)) / 3)) (i % 3)) s
    (i / (LED_ROWS * LED_COLS * 3))

/-- Modelled from the spec: `Matrix::show()` (declared matrix.h line 111; the spec
calls the operation `publish()`, and `show` is a reserved word in Lean).  Per
section 4.5 it triggers the Waveform Encoder to fill the buffer currently
identified as back, then sets the pending flag; if the flag was already set the
back buffer is simply overwritten again, with no queueing. -/
def Matrix.publish (m : Matrix) : Matrix :=
  { m with
    dmaBuffer :=
      Function.update m.dmaBuffer m.backBuffer (pixelsToDmaBuffer m.pixels m.brightness),
    swapBuffers := true }

/-- Modelled from the spec: `Matrix::bufferWaiting` (declared matrix.h line 149):
true iff a publish has completed and has not yet been swapped in. -/
def Matrix.bufferWaiting (m : Matrix) : Bool := m.swapBuffers

/-- Modelled from the spec: the swap step the Sequencer performs at a full-cycle
boundary, `trySwapAtBoundary()` of spec section 4.5 (the boundary check lives in
the `refresh()` interrupt path, declared matrix.h line 114 with its body not
among the analysed sources).  If the pending flag is set, the front and back
identities are exchanged and the flag cleared; otherwise nothing changes.  The
buffer contents are never copied: only the two identities move. -/
def Matrix.trySwapAtBoundary (m : Matrix) : Matrix :=
  if m.swapBuffers then
    { m with
      frontBuffer := m.backBuffer,
      backBuffer := m.frontBuffer,
      swapBuffers := false }
  else m

/-- The operations of the producer context plus the full-cycle boundary event of
the Sequencer (spec sections 4.5, 4.6 and 5): pixel writes (both overloads),
brightness changes, publishes, and the boundary at which the Sequencer checks
for a pending swap after the terminal slot of the last page. -/
inductive Op where
  | setPx (column row rv gv bv : ℕ)
  | setPxVal (column row : ℕ) (p : Pixel)
  | setBright (x : ℚ)
  | publish
  | cycleBoundary

/-- One step of the system: how each operation transforms the driver state. -/
def applyOp (m : Matrix) (o : Op) : Matrix :=
  match o with
  | .setPx c r rv gv bv => m.setPixelColor c r rv gv bv
  | .setPxVal c r p => m.setPixelColorPx c r p
  | .setBright x => m.setBrightness x
  | .publish => m.publish
  | .cycleBoundary => m.trySwapAtBoundary

/-- Folding a whole trace of operations from a starting state. -/
def applyOps (m : Matrix) (ops : List Op) : Matrix := ops.foldl applyOp m

/-- Operations of the normal producer path that neither publish nor touch the
double-buffer coordinator: pixel and brightness writes. -/
def Op.isLocalWrite : Op → Bool
  | .setPx _ _ _ _ _ => true
  | .setPxVal _ _ _ => true
  | .setBright _ => true
  | .publish => false
  | .cycleBoundary => false

/-- The scenario behind the last-publish-wins property: some local writes, a
first `show()`, more local writes, a second `show()`, then the boundary at which
the Sequencer performs the pending swap. -/
def twoPublishScenario (m : Matrix) (opsA opsB : List Op) : Matrix :=
  ((applyOps ((applyOps m opsA).publish) opsB).publish).trySwapAtBoundary

/-- Modelled from the spec (section 4.1): one slot per (row, PWM-bit) pair, rows
outer and bits inner, the entry of slot (row, bit) given by `g row bit`. -/
def slots (rows pwmBits : ℕ) (g : ℕ → ℕ → ℕ) : List ℕ :=
  (List.range rows).flatMap (fun r => (List.range pwmBits).map (g r))

/-- Binary-weighted slot duration: `duration(bit) = 2^bit` timer ticks
(spec sections 3 and 8). -/
def slotDuration (b : ℕ) : ℕ := 2 ^ b

/-- Modelled from the spec: the duration of the appended terminal slot.  Section
4.1 only says it "triggers return-to-start" without giving a numeric value, so it
is modelled as the shortest pulse. -/
def timerSentinel : ℕ := 1

/-- Modelled from the spec: the row-select code presented on the address mux for
a row.  The spec fixes only that the table holds one code per row in cycling
order, so the code is the row number itself. -/
def rowAddress (r : ℕ) : ℕ := r

/-- Modelled from the spec: the terminal/reset entry of the address table. -/
def addressSentinel : ℕ := 0

/-- Modelled from the spec: `Matrix::buildAddressTable` (declared matrix.h line
164; body not among the analysed sources).  Per sections 3 and 4.1: one
row-select code per (row, PWM-bit) slot in cycling order plus one terminal/reset
entry, a pure function of geometry.  The C++ table `Addresses` is declared with
exactly `PWM_BITS*LED_ROWS+1` entries (matrix.h line 138). -/
def buildAddressTable (rows pwmBits : ℕ) : List ℕ :=
  slots rows pwmBits (fun r _ => rowAddress r) ++ [addressSentinel]

/-- Modelled from the spec: the period ("MOD") half of `Matrix::buildTimerTables`
(matrix.h lines 141 and 165; body not among the analysed sources).  Per sections
3 and 4.1, slot (row, bit) carries the binary-weighted duration `2^bit`, and one
terminal sentinel is appended.  The C++ table `FTM0_MODStates` is a `uint16_t`
array of `PWM_BITS*LED_ROWS+1` entries. -/
def buildTimerTablesMOD (rows pwmBits : ℕ) : List ℕ :=
  slots rows pwmBits (fun _ b => slotDuration b) ++ [timerSentinel]

/-- Modelled from the spec: the compare ("match") half of `Matrix::buildTimerTables`
(matrix.h lines 142 and 165).  The spec fixes only that the compare values are
binary-weighted like the periods (section 3), so slot (row, bit) is modelled as
`2^bit` as well. -/
def buildTimerTablesC1V (rows pwmBits : ℕ) : List ℕ :=
  slots rows pwmBits (fun _ b => slotDuration b) ++ [timerSentinel]

/-- Unfolding of the slot enumeration over one more row. -/
theorem slots_succ (rows pwmBits : ℕ) (g : ℕ → ℕ → ℕ) :
    slots (rows + 1) pwmBits g = slots rows pwmBits g ++ (List.range pwmBits).map (g rows) := by
  unfold slots
  rw [List.range_succ, List.flatMap_append]
  simp

/-- The slot enumeration has one entry per (row, PWM-bit) pair. -/
theorem slots_length (rows pwmBits : ℕ) (g : ℕ → ℕ → ℕ) :
    (slots rows pwmBits g).length = rows * pwmBits := by
  induction rows with
  | zero => simp [slots]
  | succ n ih =>
    rw [slots_succ, List.length_append, ih]
    simp [Nat.succ_mul]

/-- The entry of the slot enumeration at position `r * pwmBits + b` is the entry
generated for row `r` and PWM bit `b`. -/
theorem slots_getElem (rows pwmBits : ℕ) (g : ℕ → ℕ → ℕ) (r b : ℕ)
    (hr : r < rows) (hb : b < pwmBits) :
    (slots rows pwmBits g)[r * pwmBits + b]? = some (g r b) := by
  induction rows with
  | zero => omega
  | succ n ih =>
    rw [slots_succ]
    rcases Nat.lt_or_ge r n with h | h
    · rw [List.getElem?_append_left]
      · exact ih h
      · rw [slots_length]
        calc r * pwmBits + b < r * pwmBits + pwmBits := by omega
          _ = (r + 1) * pwmBits := by ring
          _ ≤ n * pwmBits := Nat.mul_le_mul_right _ (by omega)
    · have hrn : r = n := by omega
      subst hrn
      rw [List.getElem?_append_right (by rw [slots_length]; omega)]
      rw [slots_length]
      simp only [Nat.add_sub_cancel_left]
      rw [List.getElem?_map, List.getElem?_range hb]
      rfl

/-- A local write (pixel or brightness operation) leaves the whole double-buffer
coordinator state alone: buffer identities, buffer contents and pending flag. -/
theorem applyOp_localWrite (m : Matrix) (o : Op) (h : o.isLocalWrite = true) :
    (applyOp m o).frontBuffer = m.frontBuffer ∧
    (applyOp m o).backBuffer = m.backBuffer ∧
    (applyOp m o).dmaBuffer = m.dmaBuffer ∧
    (applyOp m o).swapBuffers = m.swapBuffers := by
  cases o <;>
    simp_all [applyOp, Op.isLocalWrite, Matrix.setPixelColor, Matrix.setPixelColorPx,
      Matrix.setBrightness]

/-- A trace of local writes leaves the whole double-buffer coordinator state alone. -/
theorem applyOps_localWrite (ops : List Op) (h : ∀ o ∈ ops, o.isLocalWrite = true) :
    ∀ m : Matrix,
      (applyOps m ops).frontBuffer = m.frontBuffer ∧
      (applyOps m ops).backBuffer = m.backBuffer ∧
      (applyOps m ops).dmaBuffer = m.dmaBuffer ∧
      (applyOps m ops).swapBuffers = m.swapBuffers := by
  induction ops with
  | nil => intro m; simp [applyOps]
  | cons o rest ih =>
    intro m
    have ho : o.isLocalWrite = true := h o (by simp)
    have hrest : ∀ x ∈ rest, x.isLocalWrite = true := fun x hx => h x (by simp [hx])
    have h1 := applyOp_localWrite m o ho
    have h2 := ih hrest (applyOp m o)
    simp only [applyOps, List.foldl_cons] at h2 ⊢
    exact ⟨h1.1 ▸ h2.1, h1.2.1 ▸ h2.2.1, h1.2.2.1 ▸ h2.2.2.1, h1.2.2.2 ▸ h2.2.2.2⟩

/-- Every single operation preserves the two-buffer invariant: the front and the
back identity stay distinct. -/
theorem applyOp_front_ne_back (m : Matrix) (o : Op)
    (h : m.frontBuffer ≠ m.backBuffer) :
    (applyOp m o).frontBuffer ≠ (applyOp m o).backBuffer := by
  cases o with
  | setPx c r rv gv bv => simpa [applyOp, Matrix.setPixelColor] using h
  | setPxVal c r p => simpa [applyOp, Matrix.setPixelColorPx] using h
  | setBright x => simpa [applyOp, Matrix.setBrightness] using h
  | publish => simpa [applyOp, Matrix.publish] using h
  | cycleBoundary =>
    simp only [applyOp, Matrix.trySwapAtBoundary]
    split
    · simpa using Ne.symm h
    · exact h

/-- Every trace of operations preserves the two-buffer invariant. -/
theorem applyOps_front_ne_back (ops : List Op) :
    ∀ m : Matrix, m.frontBuffer ≠ m.backBuffer →
      (applyOps m ops).frontBuffer ≠ (applyOps m ops).backBuffer := by
  induction ops with
  | nil => intro m h; simpa [applyOps] using h
  | cons o rest ih =>
    intro m h
    simpa [applyOps, List.foldl_cons] using ih (applyOp m o) (applyOp_front_ne_back m o h)

/-- C1: the swap performed by the Sequencer at a full-cycle boundary exchanges the
front and back buffer identities and clears the pending flag when the flag is
set, leaving the buffer contents, the pixel store and the brightness untouched
(an identity exchange, never a copy); it is a no-op changing no state when the
flag is clear; and after any trace of operations from the initial state exactly
one of the two physical buffers is front and the other is back. -/
theorem swap_boundary_exchanges_identities :
    (∀ m : Matrix, m.swapBuffers = true →
      m.trySwapAtBoundary.frontBuffer = m.backBuffer ∧
      m.trySwapAtBoundary.backBuffer = m.frontBuffer ∧
      m.trySwapAtBoundary.swapBuffers = false ∧
      m.trySwapAtBoundary.dmaBuffer = m.dmaBuffer ∧
      m.trySwapAtBoundary.pixels = m.pixels ∧
      m.trySwapAtBoundary.brightness = m.brightness) ∧
    (∀ m : Matrix, m.swapBuffers = false → m.trySwapAtBoundary = m) ∧
    (∀ ops : List Op,
      (applyOps matrixInit ops).frontBuffer ≠ (applyOps matrixInit ops).backBuffer) := by
  refine ⟨?_, ?_, ?_⟩
  · intro m h
    simp [Matrix.trySwapAtBoundary, h]
  · intro m h
    simp [Matrix.trySwapAtBoundary, h]
  · intro ops
    exact applyOps_front_ne_back ops matrixInit (by decide)

/-- Witness for C1: on a freshly published driver the boundary swap makes buffer 1
front and buffer 0 back and clears the flag; on the fresh driver, whose flag is
clear, the swap changes nothing. -/
theorem swap_boundary_exchanges_identities_check :
    (matrixInit.publish.trySwapAtBoundary.frontBuffer = matrixInit.publish.backBuffer ∧
      matrixInit.publish.trySwapAtBoundary.backBuffer = matrixInit.publish.frontBuffer ∧
      matrixInit.publish.trySwapAtBoundary.swapBuffers = false ∧
      matrixInit.publish.trySwapAtBoundary.dmaBuffer = matrixInit.publish.dmaBuffer ∧
      matrixInit.publish.trySwapAtBoundary.pixels = matrixInit.publish.pixels ∧
      matrixInit.publish.trySwapAtBoundary.brightness = matrixInit.publish.brightness) ∧
    matrixInit.trySwapAtBoundary = matrixInit :=
  ⟨swap_boundary_exchanges_identities.1 matrixInit.publish rfl,
   swap_boundary_exchanges_identities.2.1 matrixInit rfl⟩

/-- C2: for every channel value in [0,255] and brightness scale in [0,1], the
arithmetic mean over all pages of the per-page encoded values reconstructs the
requested `bitDepth`-bit intensity divided by `2^pagedBits` to within one
least-significant bit (with the evenly spaced dither the reconstruction is in
fact exact). -/
theorem dither_page_mean_reconstructs_intensity (v : ℕ) (s : ℚ)
    (hv : v ≤ 255) (hs0 : 0 ≤ s) (hs1 : s ≤ 1) :
    |(∑ p in Finset.range PAGES, (pageValue v s p : ℚ)) / (PAGES : ℚ) -
      (targetValue v s : ℚ) / 2 ^ PAGED_BITS| ≤ 1 := by
  have hsum : (∑ p in Finset.range PAGES, pageValue v s p) = targetValue v s := by
    have h4 : ∀ T : ℤ, (∑ p in Finset.range 4, (T + (p : ℤ)) / 4) = T := by
      intro T
      simp [Finset.sum_range_succ]
      omega
    simpa [pageValue, PAGES] using h4 (targetValue v s)
  have hQ : (∑ p in Finset.range PAGES, (pageValue v s p : ℚ)) = (targetValue v s : ℚ) := by
    exact_mod_cast hsum
  rw [hQ]
  norm_num [PAGES, PAGED_BITS]

/-- Witness for C2 at the mid-range channel value 128 and full brightness. -/
theorem dither_page_mean_reconstructs_intensity_check :
    |(∑ p in Finset.range PAGES, (pageValue 128 1 p : ℚ)) / (PAGES : ℚ) -
      (targetValue 128 1 : ℚ) / 2 ^ PAGED_BITS| ≤ 1 :=
  dither_page_mean_reconstructs_intensity 128 1 (by norm_num) (by norm_num) (by norm_num)

/-- C3: in the timer tables, the slot for row `r` and PWM bit `b` carries the
binary-weighted duration `2^b`; within a row the durations double at each bit
step and are strictly increasing across bit index; and at `pwmBits = 12` no
entry of either table overflows the 16-bit word width of the C++ arrays. -/
theorem timer_tables_binary_weighted :
    (∀ rows pwmBits r b, r < rows → b < pwmBits →
      (buildTimerTablesMOD rows pwmBits)[r * pwmBits + b]? = some (slotDuration b) ∧
      (buildTimerTablesC1V rows pwmBits)[r * pwmBits + b]? = some (slotDuration b)) ∧
    (∀ b, slotDuration (b + 1) = 2 * slotDuration b) ∧
    (∀ b1 b2, b1 < b2 → slotDuration b1 < slotDuration b2) ∧
    (∀ x ∈ buildTimerTablesMOD LED_ROWS PWM_BITS, x < 2 ^ 16) ∧
    (∀ x ∈ buildTimerTablesC1V LED_ROWS PWM_BITS, x < 2 ^ 16) := by
  refine ⟨?_, ?_, ?_, ?_, ?_⟩
  · intro rows pwmBits r b hr hb
    have hlt : r * pwmBits + b < (slots rows pwmBits (fun _ b => slotDuration b)).length := by
      rw [slots_length]
      calc r * pwmBits + b < r * pwmBits + pwmBits := by omega
        _ = (r + 1) * pwmBits := by ring
        _ ≤ rows * pwmBits := Nat.mul_le_mul_right _ (by omega)
    constructor
    · rw [buildTimerTablesMOD, List.getElem?_append_left hlt]
      exact slots_getElem rows pwmBits _ r b hr hb
    · rw [buildTimerTablesC1V, List.getElem?_append_left hlt]
      exact slots_getElem rows pwmBits _ r b hr hb
  · intro b
    simp [slotDuration, pow_succ]
    ring
  · intro b1 b2 h
    exact Nat.pow_lt_pow_right (by norm_num) h
  · decide
  · decide

/-- Witness for C3: on the real geometry the slot of row 2 and bit 5 carries
duration 32, and bit 0 is strictly shorter than bit 11. -/
theorem timer_tables_binary_weighted_check :
    (buildTimerTablesMOD LED_ROWS PWM_BITS)[2 * PWM_BITS + 5]? = some (slotDuration 5) ∧
    slotDuration 0 < slotDuration 11 :=
  ⟨(timer_tables_binary_weighted.1 LED_ROWS PWM_BITS 2 5 (by norm_num [LED_ROWS])
      (by norm_num [PWM_BITS])).1,
   timer_tables_binary_weighted.2.2.1 0 11 (by norm_num)⟩

/-- C4: for every geometry with at least one row and one PWM bit, the address
table and both timer tables have exactly `pwmBits * rows + 1` entries: one per
(row, PWM-bit) slot plus one terminal entry. -/
theorem tables_have_slot_count_entries (rows pwmBits : ℕ)
    (hr : 1 ≤ rows) (hb : 1 ≤ pwmBits) :
    (buildAddressTable rows pwmBits).length = pwmBits * rows + 1 ∧
    (buildTimerTablesMOD rows pwmBits).length = pwmBits * rows + 1 ∧
    (buildTimerTablesC1V rows pwmBits).length = pwmBits * rows + 1 := by
  refine ⟨?_, ?_, ?_⟩ <;>
    simp [buildAddressTable, buildTimerTablesMOD, buildTimerTablesC1V, slots_length,
      Nat.mul_comm]

/-- Witness for C4 at the real geometry: all three tables have
`PWM_BITS * LED_ROWS + 1 = 97` entries, matching the C++ array declarations. -/
theorem tables_have_slot_count_entries_check :
    (buildAddressTable LED_ROWS PWM_BITS).length = PWM_BITS * LED_ROWS + 1 ∧
    (buildTimerTablesMOD LED_ROWS PWM_BITS).length = PWM_BITS * LED_ROWS + 1 ∧
    (buildTimerTablesC1V LED_ROWS PWM_BITS).length = PWM_BITS * LED_ROWS + 1 :=
  tables_have_slot_count_entries LED_ROWS PWM_BITS (by norm_num [LED_ROWS])
    (by norm_num [PWM_BITS])

/-- C5, counterexample: the claim that an out-of-range `setPixelColor` call is
reported as an explicit error and leaves the pixel grid unchanged is false on
this code.  The header declares the function `void` (matrix.h line 97), so no
failure can reach the caller, and per the bounds-unchecked indexing the call
with column 8, row 0 on the fresh 8 x 8 driver overwrites the in-range pixel at
column 0, row 1, whose linear index 8 coincides with the unchecked index of the
call. -/
theorem out_of_range_write_mutates_grid :
    (matrixInit.setPixelColor 8 0 255 10 0).pixels (linearIndex 0 1) ≠
      matrixInit.pixels (linearIndex 0 1) := by
  decide

/-- C5 as amended: an out-of-range `setPixelColor` is not reported to the caller
(the call only transforms the state); the write proceeds at the unchecked linear
index `row * columns + column`, so a call with an out-of-range column produces
exactly the state of an in-range-column write at the aliased coordinates
(index mod and div the column count), which differ from the requested ones; and
a call with an out-of-range row touches an index beyond the grid region
entirely. -/
theorem out_of_range_write_unchecked_aliasing (m : Matrix) (c r : ℕ)
    (hc : LED_COLS ≤ c) :
    m.setPixelColor c r 255 10 0 =
      m.setPixelColor (linearIndex c r % LED_COLS) (linearIndex c r / LED_COLS) 255 10 0 ∧
    linearIndex c r % LED_COLS < LED_COLS ∧
    (linearIndex c r % LED_COLS, linearIndex c r / LED_COLS) ≠ (c, r) ∧
    (m.setPixelColor c r 255 10 0).pixels (linearIndex c r) = ⟨255, 10, 0⟩ ∧
    (∀ row, LED_ROWS ≤ row → ∀ col, LED_ROWS * LED_COLS ≤ linearIndex col row) := by
  have hcols : LED_COLS = 8 := rfl
  have hidx : linearIndex (linearIndex c r % LED_COLS) (linearIndex c r / LED_COLS) =
      linearIndex c r := by
    simp only [linearIndex, hcols]
    omega
  refine ⟨?_, ?_, ?_, ?_, ?_⟩
  · simp only [Matrix.setPixelColor]
    rw [hidx]
  · exact Nat.mod_lt _ (by omega)
  · intro hpair
    have h1 : linearIndex c r % LED_COLS = c := congrArg Prod.fst hpair
    have h2 : linearIndex c r % LED_COLS < LED_COLS := Nat.mod_lt _ (by omega)
    omega
  · simp [Matrix.setPixelColor, Function.update_same]
  · intro row hrow col
    simp only [linearIndex, hcols]
    have : LED_ROWS = 8 := rfl
    omega

/-- Witness for C5 as amended, at the concrete out-of-range call (column 8,
row 0) on the fresh driver. -/
theorem out_of_range_write_unchecked_aliasing_check :
    matrixInit.setPixelColor 8 0 255 10 0 =
      matrixInit.setPixelColor (linearIndex 8 0 % LED_COLS) (linearIndex 8 0 / LED_COLS)
        255 10 0 ∧
    linearIndex 8 0 % LED_COLS < LED_COLS ∧
    (linearIndex 8 0 % LED_COLS, linearIndex 8 0 / LED_COLS) ≠ (8, 0) ∧
    (matrixInit.setPixelColor 8 0 255 10 0).pixels (linearIndex 8 0) = ⟨255, 10, 0⟩ ∧
    (∀ row, LED_ROWS ≤ row → ∀ col, LED_ROWS * LED_COLS ≤ linearIndex col row) :=
  out_of_range_write_unchecked_aliasing matrixInit 8 0 (by decide)

/-- C6: after `setBrightness x` the stored brightness is `x` clamped to [0,1],
`getBrightness` returns exactly that stored clamped value, the clamp is the
identity on in-range inputs and saturates out-of-range inputs, and the pixel
store is not mutated. -/
theorem setBrightness_clamps_and_preserves_pixels (m : Matrix) (x : ℚ) :
    (m.setBrightness x).getBrightness = clampUnit x ∧
    0 ≤ clampUnit x ∧
    clampUnit x ≤ 1 ∧
    (0 ≤ x → x ≤ 1 → clampUnit x = x) ∧
    (x ≤ 0 → clampUnit x = 0) ∧
    (1 ≤ x → clampUnit x = 1) ∧
    (m.setBrightness x).pixels = m.pixels := by
  refine ⟨rfl, le_max_left 0 _, ?_, ?_, ?_, ?_, rfl⟩
  · exact max_le (by norm_num) (min_le_left 1 x)
  · intro h0 h1
    rw [clampUnit, min_eq_right h1, max_eq_right h0]
  · intro h0
    rw [clampUnit, min_eq_right (le_trans h0 (by norm_num)), max_eq_left h0]
  · intro h1
    rw [clampUnit, min_eq_left h1, max_eq_right (by norm_num)]

/-- Witness for C6: the out-of-range request 2 is stored as 1, and `getBrightness`
returns the stored clamped value. -/
theorem setBrightness_clamps_and_preserves_pixels_check :
    clampUnit 2 = 1 ∧ (matrixInit.setBrightness 2).getBrightness = clampUnit 2 :=
  ⟨(setBrightness_clamps_and_preserves_pixels matrixInit 2).2.2.2.2.2.1 (by norm_num),
   (setBrightness_clamps_and_preserves_pixels matrixInit 2).1⟩

/-- C7: for every in-range position, `setPixelColor` with (255, 10, 0) followed by
`getPixels` yields the pixel (255, 10, 0) at linear index `row * columns + column`,
every other in-range position keeps the value it held before the call, and on
the fresh driver every other in-range position still reads (0, 0, 0). -/
theorem set_get_round_trip (m : Matrix) (c r : ℕ)
    (hc : c < LED_COLS) (hr : r < LED_ROWS) :
    (m.setPixelColor c r 255 10 0).getPixels (linearIndex c r) = ⟨255, 10, 0⟩ ∧
    (∀ c2 r2, c2 < LED_COLS → r2 < LED_ROWS → (c2, r2) ≠ (c, r) →
      (m.setPixelColor c r 255 10 0).getPixels (linearIndex c2 r2) =
        m.getPixels (linearIndex c2 r2)) ∧
    (∀ c2 r2, c2 < LED_COLS → r2 < LED_ROWS → (c2, r2) ≠ (c, r) →
      (matrixInit.setPixelColor c r 255 10 0).getPixels (linearIndex c2 r2) =
        ⟨0, 0, 0⟩) := by
  have hcols : LED_COLS = 8 := rfl
  have key : ∀ c2 r2, c2 < LED_COLS → (c2, r2) ≠ (c, r) →
      linearIndex c2 r2 ≠ linearIndex c r := by
    intro c2 r2 hc2 hne
    simp only [linearIndex, hcols] at *
    intro heq
    apply hne
    have : c2 = c ∧ r2 = r := by omega
    simp [this.1, this.2]
  refine ⟨?_, ?_, ?_⟩
  · simp [Matrix.setPixelColor, Matrix.getPixels, Function.update_same]
  · intro c2 r2 hc2 hr2 hne
    simp [Matrix.setPixelColor, Matrix.getPixels,
      Function.update_noteq (key c2 r2 hc2 hne)]
  · intro c2 r2 hc2 hr2 hne
    simp [Matrix.setPixelColor, Matrix.getPixels,
      Function.update_noteq (key c2 r2 hc2 hne), matrixInit, Pixel.init]

/-- Witness for C7 at position (3, 2) on the fresh driver, with (0, 0) as the
unrelated position. -/
theorem set_get_round_trip_check :
    (matrixInit.setPixelColor 3 2 255 10 0).getPixels (linearIndex 3 2) = ⟨255, 10, 0⟩ ∧
    (matrixInit.setPixelColor 3 2 255 10 0).getPixels (linearIndex 0 0) = ⟨0, 0, 0⟩ :=
  ⟨(set_get_round_trip matrixInit 3 2 (by decide) (by decide)).1,
   (set_get_round_trip matrixInit 3 2 (by decide) (by decide)).2.2 0 0 (by decide)
     (by decide) (by decide)⟩

/-- C8: when two publishes happen between two consecutive swap boundaries, with
arbitrary local writes before and between them, the swap at the next boundary
happens (the flag is consumed), the new front buffer is the buffer that was back
throughout, and its contents are exactly the encode of the pixel store and
brightness as they stood at the second publish: the second encode fully
overwrote the back buffer and the first publish left no trace, so the last
publish wins. -/
theorem last_publish_wins (m : Matrix) (opsA opsB : List Op)
    (hA : ∀ o ∈ opsA, o.isLocalWrite = true)
    (hB : ∀ o ∈ opsB, o.isLocalWrite = true) :
    (twoPublishScenario m opsA opsB).frontBuffer = m.backBuffer ∧
    (twoPublishScenario m opsA opsB).swapBuffers = false ∧
    (twoPublishScenario m opsA opsB).dmaBuffer
        ((twoPublishScenario m opsA opsB).frontBuffer) =
      pixelsToDmaBuffer (applyOps ((applyOps m opsA).publish) opsB).pixels
        (applyOps ((applyOps m opsA).publish) opsB).brightness := by
  obtain ⟨hAf, hAb, hAd, hAs⟩ := applyOps_localWrite opsA hA m
  obtain ⟨hBf, hBb, hBd, hBs⟩ := applyOps_localWrite opsB hB ((applyOps m opsA).publish)
  have hpubBack : ((applyOps m opsA).publish).backBuffer = m.backBuffer := by
    simp [Matrix.publish, hAb]
  have hmidBack : (applyOps ((applyOps m opsA).publish) opsB).backBuffer = m.backBuffer := by
    rw [hBb, hpubBack]
  have hflag : ((applyOps ((applyOps m opsA).publish) opsB).publish).swapBuffers = true := by
    simp [Matrix.publish]
  unfold twoPublishScenario
  simp only [Matrix.trySwapAtBoundary]
  rw [if_pos hflag]
  exact ⟨hmidBack, rfl, Function.update_same _ _ _⟩

/-- Witness for C8: on the fresh driver, with no writes before the first publish
and one pixel write between the publishes. -/
theorem last_publish_wins_check :
    (twoPublishScenario matrixInit [] [Op.setPx 0 0 9 9 9]).frontBuffer =
      matrixInit.backBuffer ∧
    (twoPublishScenario matrixInit [] [Op.setPx 0 0 9 9 9]).swapBuffers = false ∧
    (twoPublishScenario matrixInit [] [Op.setPx 0 0 9 9 9]).dmaBuffer
        ((twoPublishScenario matrixInit [] [Op.setPx 0 0 9 9 9]).frontBuffer) =
      pixelsToDmaBuffer
        (applyOps ((applyOps matrixInit []).publish) [Op.setPx 0 0 9 9 9]).pixels
        (applyOps ((applyOps matrixInit []).publish) [Op.setPx 0 0 9 9 9]).brightness :=
  last_publish_wins matrixInit [] [Op.setPx 0 0 9 9 9]
    (by intro o ho; simp at ho)
    (by intro o ho; simp at ho; rw [ho]; rfl)

/-- C9, counterexample: the claim that the view returned by `getPixels` cannot be
used to mutate the Pixel Store is false on this code.  The header declares
`Pixel* getPixels()` (matrix.h line 108), a non-const pointer into the live
`pixels` member, and a store through that pointer at index 0 changes the value
the store holds there. -/
theorem getPixels_view_can_mutate_store :
    (matrixInit.ptrWrite 0 ⟨255, 10, 0⟩).getPixels 0 ≠ matrixInit.getPixels 0 := by
  decide

/-- C9 as amended: `getPixels` returns a view that reads the entire live grid and
the call itself changes no field of the driver, but the returned non-const
pointer aliases the live Pixel Store: a store through it mutates exactly the
addressed cell of the grid, while leaving the brightness, both buffer
identities, the buffer contents and the pending flag alone. -/
theorem getPixels_live_view_semantics (m : Matrix) :
    m.getPixels = m.pixels ∧
    (∀ i p, (m.ptrWrite i p).getPixels i = p) ∧
    (∀ i p j, j ≠ i → (m.ptrWrite i p).getPixels j = m.getPixels j) ∧
    (∀ i p, (m.ptrWrite i p).brightness = m.brightness ∧
      (m.ptrWrite i p).frontBuffer = m.frontBuffer ∧
      (m.ptrWrite i p).backBuffer = m.backBuffer ∧
      (m.ptrWrite i p).dmaBuffer = m.dmaBuffer ∧
      (m.ptrWrite i p).swapBuffers = m.swapBuffers) := by
  refine ⟨rfl, ?_, ?_, ?_⟩
  · intro i p
    simp [Matrix.ptrWrite, Matrix.getPixels, Function.update_same]
  · intro i p j hj
    simp [Matrix.ptrWrite, Matrix.getPixels, Function.update_noteq hj]
  · intro i p
    exact ⟨rfl, rfl, rfl, rfl, rfl⟩

/-- Witness for C9 as amended: on the fresh driver a store through the view at
index 0 leaves index 1 unchanged. -/
theorem getPixels_live_view_semantics_check :
    (matrixInit.ptrWrite 0 ⟨255, 10, 0⟩).getPixels 1 = matrixInit.getPixels 1 :=
  (getPixels_live_view_semantics matrixInit).2.2.1 0 ⟨255, 10, 0⟩ 1 (by decide)

/-- C10: the `Pixel` overload of `setPixelColor` leaves the driver in exactly the
same state as the discrete-channel overload applied to the components of the
pixel: the two overloads are extensionally equal. -/
theorem setPixelColor_overloads_agree (m : Matrix) (c r : ℕ) (p : Pixel) :
    m.setPixelColorPx c r p = m.setPixelColor c r p.R p.G p.B := by
  cases p
  rfl

end EightByEight
